import Mathlib

/-
Verification of the bank-statement extraction pipeline
(app/services/pdf_extraction.py, app/api/routes/pdf_extraction.py,
app/models/bank_statement.py, app/schemas/bank_statement.py,
alembic migration 8ab099362d84).

The Python code is shallowly embedded: monetary floats become integer cent
amounts, datetimes become a calendar-day index plus a time-of-day index,
uuid generation becomes a counter, and the inference service is an oracle
parameter (each call either returns a structured record or fails).  The
SQLAlchemy session is modeled as a base (committed) state plus a session
view; flushed rows live only in the view until commit.
-/

namespace BankPipeline

/- ### Python string primitives (ASCII, as used by the pipeline) -/

/-- ASCII uppercase of one character; Python str.upper restricted to the
ASCII labels and descriptions this pipeline handles. -/
def upperChar (c : Char) : Char :=
  if 'a' ≤ c && c ≤ 'z' then Char.ofNat (c.toNat - 32) else c

/-- Python str.upper over an ASCII string. -/
def pyUpper (s : String) : String := String.mk (s.data.map upperChar)

/-- Python str.replace with a single-character pattern and replacement. -/
def pyReplaceChar (pat rep : Char) (s : String) : String :=
  String.mk (s.data.map (fun c => if c = pat then rep else c))

/-- The whitespace characters Python str.strip removes from the ASCII text
in play. -/
def pySpace (c : Char) : Bool := c == ' ' || c == '\t' || c == '\n' || c == '\r'

/-- Python str.strip. -/
def pyStrip (s : String) : String :=
  String.mk (((s.data.dropWhile pySpace).reverse.dropWhile pySpace).reverse)

/-- Python s[:n]. -/
def pySlice (n : Nat) (s : String) : String := String.mk (s.data.take n)

/- ### The category taxonomy (models + schemas TransactionCategoryEnum) -/

/-- TransactionCategoryEnum of app/models/bank_statement.py (the schema enum
in app/schemas/bank_statement.py has the same members and values). -/
inductive TransactionCategoryEnum where
  | HOUSING | TRANSPORTATION | FOOD_DINING | ENTERTAINMENT | SHOPPING
  | UTILITIES | HEALTH_MEDICAL | PERSONAL_CARE | EDUCATION | TRAVEL
  | GIFTS_DONATIONS | INCOME | INVESTMENTS | SAVINGS | FEES_CHARGES
  | ATM_CASH | TRANSFERS | INSURANCE | TAXES | OTHER
deriving DecidableEq

/-- The Python enum member name (the attribute looked up by hasattr). -/
def memberName : TransactionCategoryEnum → String
  | .HOUSING => "HOUSING"
  | .TRANSPORTATION => "TRANSPORTATION"
  | .FOOD_DINING => "FOOD_DINING"
  | .ENTERTAINMENT => "ENTERTAINMENT"
  | .SHOPPING => "SHOPPING"
  | .UTILITIES => "UTILITIES"
  | .HEALTH_MEDICAL => "HEALTH_MEDICAL"
  | .PERSONAL_CARE => "PERSONAL_CARE"
  | .EDUCATION => "EDUCATION"
  | .TRAVEL => "TRAVEL"
  | .GIFTS_DONATIONS => "GIFTS_DONATIONS"
  | .INCOME => "INCOME"
  | .INVESTMENTS => "INVESTMENTS"
  | .SAVINGS => "SAVINGS"
  | .FEES_CHARGES => "FEES_CHARGES"
  | .ATM_CASH => "ATM_CASH"
  | .TRANSFERS => "TRANSFERS"
  | .INSURANCE => "INSURANCE"
  | .TAXES => "TAXES"
  | .OTHER => "OTHER"

/-- The Python enum member value (what `TransactionCategoryEnum(x)` matches,
and the string content of the str-enum instances passed around). -/
def memberValue : TransactionCategoryEnum → String
  | .HOUSING => "Housing"
  | .TRANSPORTATION => "Transportation"
  | .FOOD_DINING => "Food & Dining"
  | .ENTERTAINMENT => "Entertainment"
  | .SHOPPING => "Shopping"
  | .UTILITIES => "Utilities"
  | .HEALTH_MEDICAL => "Health & Medical"
  | .PERSONAL_CARE => "Personal Care"
  | .EDUCATION => "Education"
  | .TRAVEL => "Travel"
  | .GIFTS_DONATIONS => "Gifts & Donations"
  | .INCOME => "Income"
  | .INVESTMENTS => "Investments"
  | .SAVINGS => "Savings"
  | .FEES_CHARGES => "Fees & Charges"
  | .ATM_CASH => "ATM & Cash"
  | .TRANSFERS => "Transfers"
  | .INSURANCE => "Insurance"
  | .TAXES => "Taxes"
  | .OTHER => "Other"

/-- All members, in declaration order. -/
def allCategories : List TransactionCategoryEnum :=
  [.HOUSING, .TRANSPORTATION, .FOOD_DINING, .ENTERTAINMENT, .SHOPPING,
   .UTILITIES, .HEALTH_MEDICAL, .PERSONAL_CARE, .EDUCATION, .TRAVEL,
   .GIFTS_DONATIONS, .INCOME, .INVESTMENTS, .SAVINGS, .FEES_CHARGES,
   .ATM_CASH, .TRANSFERS, .INSURANCE, .TAXES, .OTHER]

/-- The label normalization in `_get_or_create_category`:
`category_name.upper().replace(' ', '_').replace('&', '_')`. -/
def normalizeCategoryName (s : String) : String :=
  pyReplaceChar '&' '_' (pyReplaceChar ' ' '_' (pyUpper s))

/-- The enum-resolution core of `_get_or_create_category`: normalize, then
`hasattr` lookup over member names, then direct value lookup, falling back
to OTHER when nothing matches (ValueError/KeyError path).  A missing label
hits the same fallback (`None.upper()` raises AttributeError, which the
except clause also catches). -/
def resolveCategoryEnum (label : Option String) : TransactionCategoryEnum :=
  match label with
  | none => .OTHER
  | some s =>
    let n := normalizeCategoryName s
    match allCategories.find? (fun c => decide (memberName c = n)) with
    | some c => c
    | none =>
      match allCategories.find? (fun c => decide (memberValue c = n)) with
      | some c => c
      | none => .OTHER

/- ### Schema-level records -/

/-- A Python datetime at the granularity the pipeline observes: the calendar
day (what strftime %Y-%m-%d prints) plus the time within the day, compared
lexicographically. -/
structure PyDateTime where
  day : Nat
  tod : Nat
deriving DecidableEq

/-- BankTransaction of app/schemas/bank_statement.py: one extracted
candidate transaction. -/
structure BankTransaction where
  date : PyDateTime
  description : String
  amount : Int
  balance : Option Int
  transaction_type : Option String
  category : Option TransactionCategoryEnum
  reference_number : Option String
  is_recurring : Bool
  evidence : String
deriving DecidableEq

/-- StatementMetadata of app/schemas/bank_statement.py. -/
structure StatementMetadata where
  account_number : Option String
  account_holder : Option String
  bank_name : Option String
  statement_period : Option String
  opening_balance : Option Int
  closing_balance : Option Int
deriving DecidableEq

/-- A metadata record with every optional field unset. -/
def allNullMetadata : StatementMetadata :=
  { account_number := none, account_holder := none, bank_name := none,
    statement_period := none, opening_balance := none, closing_balance := none }

/- ### Deduplication (_remove_duplicate_transactions) -/

/-- Python truthiness of an Optional[str]: present and non-empty. -/
def refTruthy : Option String → Bool
  | none => false
  | some s => !s.data.isEmpty

/-- The dedup key: `(date.strftime('%Y-%m-%d'), abs(amount),
description[:50].strip().upper())`. -/
def dedupKey (t : BankTransaction) : Nat × Int × String :=
  (t.date.day, |t.amount|, pyUpper (pyStrip (pySlice 50 t.description)))

/-- The replacement test of the dedup loop: the incoming transaction
replaces the stored one when it carries a balance the stored one lacks, or
a truthy reference number the stored one lacks. -/
def moreComplete (incoming stored : BankTransaction) : Bool :=
  (incoming.balance.isSome && stored.balance.isNone) ||
  (refTruthy incoming.reference_number && !refTruthy stored.reference_number)

/-- One iteration of the dedup loop over the insertion-ordered dict,
modeled as an association list in key-insertion order. -/
def dictInsert (acc : List ((Nat × Int × String) × BankTransaction))
    (t : BankTransaction) : List ((Nat × Int × String) × BankTransaction) :=
  if acc.any (fun p => decide (p.1 = dedupKey t)) then
    acc.map (fun p =>
      if p.1 = dedupKey t then (p.1, if moreComplete t p.2 then t else p.2) else p)
  else
    acc ++ [(dedupKey t, t)]

/-- `_remove_duplicate_transactions`: fold the candidates through the dict
and return its values in key-insertion order. -/
def removeDuplicateTransactions (transactions : List BankTransaction) :
    List BankTransaction :=
  (transactions.foldl dictInsert []).map (fun p => p.2)

/- ### Sorting (sorted(..., key=lambda x: x.date)) -/

/-- Ascending order on datetimes. -/
def dateLe (a b : PyDateTime) : Prop :=
  a.day < b.day ∨ (a.day = b.day ∧ a.tod ≤ b.tod)

instance : DecidableRel dateLe := fun a b => by unfold dateLe; infer_instance

/-- Transactions ordered by their date field only, the sort key of
extract_data. -/
def txDateLe (a b : BankTransaction) : Prop := dateLe a.date b.date

instance : DecidableRel txDateLe := fun a b => by unfold txDateLe dateLe; infer_instance

instance : IsTotal BankTransaction txDateLe := ⟨by intro a b; unfold txDateLe dateLe; omega⟩

instance : IsTrans BankTransaction txDateLe := ⟨by intro a b c; unfold txDateLe dateLe; omega⟩

/-- Python sorted(...) is a stable ascending sort; modeled by the stable
insertion sort. -/
def sortTransactions (l : List BankTransaction) : List BankTransaction :=
  List.insertionSort txDateLe l

/-- Lines 172-173 of extract_data: dedup, then stable sort by date. -/
def dedupAndSort (l : List BankTransaction) : List BankTransaction :=
  sortTransactions (removeDuplicateTransactions l)

/- ### extract_data fan-out and fan-in -/

/-- The fan-in loop of extract_data over the result list that batch
returned: a returned result either carries a transactions attribute or does
not (e.g. a structured-output parse producing None); the hasattr guard
skips the latter, so only the former contribute. -/
def combineChunkResults (results : List (Option (List BankTransaction))) :
    List BankTransaction :=
  results.foldl (fun acc r => match r with | some ts => acc ++ ts | none => acc) []

/-- transaction_extractor.batch with the default return_exceptions=False
(no override at the call site): a chunk call either raises (`.error`, an
API failure or timeout) or returns a result; the first raising call
re-raises out of batch, otherwise the results are returned in order. -/
def batchResults :
    List (Except Unit (Option (List BankTransaction))) →
      Except Unit (List (Option (List BankTransaction)))
  | [] => .ok []
  | .error e :: _ => .error e
  | .ok r :: rest =>
      match batchResults rest with
      | .error e => .error e
      | .ok rs => .ok (r :: rs)

/-- extract_data after PDF loading, parameterized by the inference oracle
outcomes: the single metadata call (an uncaught exception is `.error`,
which nothing in extract_data catches), then the batch of per-chunk calls
(whose re-raise likewise propagates), then the fan-in loop, dedup and
stable sort over the returned results. -/
def extractData (metadataResult : Except Unit StatementMetadata)
    (chunkOutcomes : List (Except Unit (Option (List BankTransaction)))) :
    Except Unit (StatementMetadata × List BankTransaction) :=
  match metadataResult with
  | .error e => .error e
  | .ok md =>
      match batchResults chunkOutcomes with
      | .error e => .error e
      | .ok results => .ok (md, dedupAndSort (combineChunkResults results))

/- ### Relational store -/

/-- bank_statements row (the fields the pipeline writes). -/
structure StatementRow where
  id : Nat
  user_id : String
  title : String
  description : String
  is_active : Bool
deriving DecidableEq

/-- bank_statement_metadata row. -/
structure MetadataRow where
  id : Nat
  statement_id : Nat
  account_number : Option String
  account_holder : Option String
  bank_name : Option String
  statement_period : Option String
  opening_balance : Option Int
  closing_balance : Option Int
deriving DecidableEq

/-- bank_categories row. -/
structure CategoryRow where
  id : Nat
  name : TransactionCategoryEnum
deriving DecidableEq

/-- bank_transactions row. -/
structure TransactionRow where
  id : Nat
  statement_id : Nat
  account_id : Option Nat
  date : PyDateTime
  description : String
  amount : Int
  balance : Option Int
  transaction_type : Option String
  category_id : Option Nat
  reference_number : Option String
  is_recurring : Bool
  evidence : String
deriving DecidableEq

/-- The four tables the pipeline touches, plus an id source standing in for
uuid generation. -/
structure DBState where
  statements : List StatementRow
  metas : List MetadataRow
  txRows : List TransactionRow
  cats : List CategoryRow
  nextId : Nat
deriving DecidableEq

/-- A database with no rows. -/
def emptyDB : DBState :=
  { statements := [], metas := [], txRows := [], cats := [], nextId := 0 }

/- ### Category get-or-create -/

/-- `_get_or_create_category` inside one open unit of work: resolve the
label, SELECT against the session view, and on a miss add-and-flush a new
row into the view. -/
def getOrCreateCategory (s : DBState) (label : Option String) :
    DBState × CategoryRow :=
  let e := resolveCategoryEnum label
  match s.cats.find? (fun c => decide (c.name = e)) with
  | some c => (s, c)
  | none =>
      let row : CategoryRow := { id := s.nextId, name := e }
      ({ s with cats := s.cats ++ [row], nextId := s.nextId + 1 }, row)

/-- A raw category INSERT as executed at flush time under the
uq_bank_categories_name unique constraint (alembic revision 8ab099362d84):
a duplicate name is rejected. -/
def dbInsertCategory (cats : List CategoryRow) (nextId : Nat)
    (e : TransactionCategoryEnum) :
    Except Unit (List CategoryRow × Nat × CategoryRow) :=
  if cats.any (fun c => decide (c.name = e)) then .error ()
  else
    let row : CategoryRow := { id := nextId, name := e }
    .ok (cats ++ [row], nextId + 1, row)

/-- Two concurrent `_get_or_create_category` calls for the same label under
the racing schedule: both SELECTs read the same snapshot, then the two
flush-time INSERTs execute in turn.  The except clause of the code catches
only ValueError/KeyError/AttributeError, so a unique-constraint violation
propagates as an error. -/
def concurrentGetOrCreate (cats : List CategoryRow) (nextId : Nat)
    (label : Option String) :
    Except Unit (List CategoryRow × CategoryRow × CategoryRow) :=
  let e := resolveCategoryEnum label
  match cats.find? (fun c => decide (c.name = e)) with
  | some c => .ok (cats, c, c)
  | none =>
      match dbInsertCategory cats nextId e with
      | .error err => .error err
      | .ok (cats1, n1, r1) =>
          match dbInsertCategory cats1 n1 e with
          | .error err => .error err
          | .ok (cats2, _, r2) => .ok (cats2, r1, r2)

/- ### save_to_database -/

/-- Outcome of the save: commit published a new state and returned the
statement row, or the except/rollback path ran and published the base
state. -/
inductive SaveResult where
  | ok (db : DBState) (stmt : StatementRow)
  | err (db : DBState)
deriving DecidableEq

/-- Whether the save committed. -/
def SaveResult.isOk : SaveResult → Bool
  | .ok _ _ => true
  | .err _ => false

/-- The transaction table of the published state. -/
def SaveResult.txRowsOf : SaveResult → List TransactionRow
  | .ok db _ => db.txRows
  | .err db => db.txRows

/-- Python `description or "Extracted bank statement data"` (None and the
empty string are both falsy). -/
def descriptionOrDefault : Option String → String
  | none => "Extracted bank statement data"
  | some s => if s.data.isEmpty then "Extracted bank statement data" else s

/-- The BankTransactionModel constructor call of the save loop: all fields
are copied from the candidate; the category foreign key is `category.id if
category else None`. -/
def mkTxRow (stmtId : Nat) (accountId : Option Nat) (rid : Nat)
    (catId : Option Nat) (t : BankTransaction) : TransactionRow :=
  { id := rid, statement_id := stmtId, account_id := accountId,
    date := t.date, description := t.description, amount := t.amount,
    balance := t.balance, transaction_type := t.transaction_type,
    category_id := catId, reference_number := t.reference_number,
    is_recurring := t.is_recurring, evidence := t.evidence }

/-- One iteration of the save loop on the session view: resolve the category
when the candidate carries a label (the str-enum value reaches
`_get_or_create_category`), then add the transaction row. -/
def saveTxStep (stmtId : Nat) (accountId : Option Nat) (view : DBState)
    (t : BankTransaction) : DBState :=
  match t.category with
  | none =>
      { view with
        txRows := view.txRows ++ [mkTxRow stmtId accountId view.nextId none t],
        nextId := view.nextId + 1 }
  | some c =>
      let vr := getOrCreateCategory view (some (memberValue c))
      { vr.1 with
        txRows := vr.1.txRows ++ [mkTxRow stmtId accountId vr.1.nextId (some vr.2.id) t],
        nextId := vr.1.nextId + 1 }

/-- The transaction loop of save_to_database.  `fail i` injects a failure of
the i-th fallible database operation of the run; a failure raises, to be
handled by the caller's except/rollback. -/
def saveTxLoop (fail : Nat → Bool) (stmtId : Nat) (accountId : Option Nat) :
    Nat → DBState → List BankTransaction → Except Unit (DBState × Nat)
  | i, view, [] => .ok (view, i)
  | i, view, t :: rest =>
      if fail i then .error () else
      saveTxLoop fail stmtId accountId (i + 1) (saveTxStep stmtId accountId view t) rest

/-- save_to_database: the try block adds the statement row (flush), the
metadata row, then per transaction resolves the category and adds the row,
and finally commits; any raised step runs the except/rollback path, which
publishes the base state unchanged.  `fail` is the failure-injection
oracle over the run's fallible database operations. -/
def saveToDatabase (fail : Nat → Bool) (db : DBState) (userId : String)
    (metadata : StatementMetadata) (transactions : List BankTransaction)
    (title : String) (description : Option String) (accountId : Option Nat) :
    SaveResult :=
  if fail 0 then .err db else
  let stmtRow : StatementRow :=
    { id := db.nextId, user_id := userId, title := title,
      description := descriptionOrDefault description, is_active := true }
  let v0 : DBState :=
    { db with statements := db.statements ++ [stmtRow], nextId := db.nextId + 1 }
  if fail 1 then .err db else
  let mdRow : MetadataRow :=
    { id := v0.nextId, statement_id := stmtRow.id,
      account_number := metadata.account_number,
      account_holder := metadata.account_holder,
      bank_name := metadata.bank_name,
      statement_period := metadata.statement_period,
      opening_balance := metadata.opening_balance,
      closing_balance := metadata.closing_balance }
  let v1 : DBState := { v0 with metas := v0.metas ++ [mdRow], nextId := v0.nextId + 1 }
  match saveTxLoop fail stmtRow.id accountId 2 v1 transactions with
  | .error _ => .err db
  | .ok (v2, j) => if fail j then .err db else .ok v2 stmtRow

/- ### The extract-bank-statement route -/

/-- The route handler after upload validation: a raised extraction aborts
with nothing saved; an empty transaction list raises
"No transactions could be extracted" before save_to_database is called;
otherwise the save runs. -/
def extractBankStatement (fail : Nat → Bool) (db : DBState) (userId : String)
    (title : String) (description : Option String) (accountId : Option Nat)
    (extraction : Except Unit (StatementMetadata × List BankTransaction)) :
    SaveResult :=
  match extraction with
  | .error _ => .err db
  | .ok (md, txs) =>
      if txs.isEmpty then .err db
      else saveToDatabase fail db userId md txs title description accountId

/- ### Concrete sample data -/

/-- 2024-03-01 as a day index, midnight. -/
def d20240301 : PyDateTime := { day := 19783, tod := 0 }

/-- Scenario A candidate: balance present, no reference number. -/
def starbucksWithBalance : BankTransaction :=
  { date := d20240301, description := "STARBUCKS 123", amount := -575,
    balance := some 100000, transaction_type := none, category := none,
    reference_number := none, is_recurring := false, evidence := "line 1" }

/-- Scenario A candidate: same key, no balance, no reference number. -/
def starbucksNoBalance : BankTransaction :=
  { starbucksWithBalance with balance := none, evidence := "line 2" }

/-- Same key, no balance, but a reference number. -/
def starbucksWithRef : BankTransaction :=
  { starbucksWithBalance with
      balance := none, reference_number := some "R1", evidence := "line 3" }

/-- A candidate with no category label and an empty evidence string (the
schema requires the field, not its non-emptiness). -/
def txNoCategoryEmptyEvidence : BankTransaction :=
  { date := d20240301, description := "UNKNOWN", amount := -100,
    balance := none, transaction_type := none, category := none,
    reference_number := none, is_recurring := false, evidence := "" }

/-- The oracle under which no injected database failure occurs. -/
def noFailure : Nat → Bool := fun _ => false

/-- The oracle under which the first database operation fails. -/
def failFirst : Nat → Bool := fun i => i == 0

/-- The statement row produced by the sample single-transaction runs below. -/
def sampleStmtRow : StatementRow :=
  { id := 0, user_id := "user-1", title := "March",
    description := "Extracted bank statement data", is_active := true }

/-- The metadata row produced by the sample runs below. -/
def sampleMdRow : MetadataRow :=
  { id := 1, statement_id := 0, account_number := none, account_holder := none,
    bank_name := none, statement_period := none, opening_balance := none,
    closing_balance := none }

/-- The committed state after saving [starbucksWithBalance] into an empty
database with no injected failure. -/
def c1finalDB : DBState :=
  { statements := [sampleStmtRow], metas := [sampleMdRow],
    txRows := [mkTxRow 0 none 2 none starbucksWithBalance], cats := [], nextId := 3 }

/-- The committed state after saving [txNoCategoryEmptyEvidence] into an
empty database with no injected failure. -/
def c8finalDB : DBState :=
  { statements := [sampleStmtRow], metas := [sampleMdRow],
    txRows := [mkTxRow 0 none 2 none txNoCategoryEmptyEvidence], cats := [], nextId := 3 }

/- ### Helper lemmas about the dedup dict -/

theorem snd_mem_dictInsert (acc : List ((Nat × Int × String) × BankTransaction))
    (t : BankTransaction) :
    ∀ p ∈ dictInsert acc t, p.2 = t ∨ ∃ q ∈ acc, p.2 = q.2 := by
  intro p hp
  unfold dictInsert at hp
  split at hp
  · rcases List.mem_map.1 hp with ⟨q, hq, hpq⟩
    by_cases hk : q.1 = dedupKey t
    · rw [if_pos hk] at hpq
      by_cases hm : moreComplete t q.2 = true
      · rw [if_pos hm] at hpq; left; rw [← hpq]
      · rw [if_neg hm] at hpq; right; exact ⟨q, hq, by rw [← hpq]⟩
    · rw [if_neg hk] at hpq; right; exact ⟨q, hq, by rw [← hpq]⟩
  · rcases List.mem_append.1 hp with h1 | h1
    · right; exact ⟨p, h1, rfl⟩
    · left; rw [List.mem_singleton.1 h1]

theorem length_dictInsert (acc : List ((Nat × Int × String) × BankTransaction))
    (t : BankTransaction) : (dictInsert acc t).length ≤ acc.length + 1 := by
  unfold dictInsert
  split
  · rw [List.length_map]; omega
  · rw [List.length_append]; simp

theorem dictInsert_ne_nil (acc : List ((Nat × Int × String) × BankTransaction))
    (t : BankTransaction) : dictInsert acc t ≠ [] := by
  unfold dictInsert
  split
  · rename_i h
    intro hnil
    rw [List.map_eq_nil_iff] at hnil
    subst hnil
    simp at h
  · simp

theorem keyInv_dictInsert (acc : List ((Nat × Int × String) × BankTransaction))
    (t : BankTransaction)
    (h1 : ∀ p ∈ acc, p.1 = dedupKey p.2)
    (h2 : acc.Pairwise (fun p q => p.1 ≠ q.1)) :
    (∀ p ∈ dictInsert acc t, p.1 = dedupKey p.2) ∧
    (dictInsert acc t).Pairwise (fun p q => p.1 ≠ q.1) := by
  unfold dictInsert
  split
  · constructor
    · intro p hp
      rcases List.mem_map.1 hp with ⟨q, hq, hpq⟩
      by_cases hk : q.1 = dedupKey t
      · rw [if_pos hk] at hpq
        by_cases hm : moreComplete t q.2 = true
        · rw [if_pos hm] at hpq; rw [← hpq]; exact hk
        · rw [if_neg hm] at hpq; rw [← hpq]; exact h1 q hq
      · rw [if_neg hk] at hpq; rw [← hpq]; exact h1 q hq
    · rw [List.pairwise_map]
      refine List.Pairwise.imp_of_mem ?_ h2
      intro p q _ _ hne
      have hfst : ∀ r : (Nat × Int × String) × BankTransaction,
          (if r.1 = dedupKey t then (r.1, if moreComplete t r.2 then t else r.2) else r).1
            = r.1 := by
        intro r
        by_cases h : r.1 = dedupKey t <;> simp [h]
      simpa [hfst] using hne
  · rename_i h
    have hmem : ∀ p ∈ acc, p.1 ≠ dedupKey t := by
      intro p hp hcontra
      exact h (List.any_eq_true.2 ⟨p, hp, by simp [hcontra]⟩)
    constructor
    · intro p hp
      rcases List.mem_append.1 hp with h1' | h1'
      · exact h1 p h1'
      · rw [List.mem_singleton.1 h1']
    · rw [List.pairwise_append]
      refine ⟨h2, List.pairwise_singleton _ _, ?_⟩
      intro p hp q hq
      rw [List.mem_singleton.1 hq]
      exact hmem p hp

theorem keyInv_foldl (l : List BankTransaction) :
    ∀ acc, (∀ p ∈ acc, p.1 = dedupKey p.2) →
      acc.Pairwise (fun p q => p.1 ≠ q.1) →
      (∀ p ∈ l.foldl dictInsert acc, p.1 = dedupKey p.2) ∧
      (l.foldl dictInsert acc).Pairwise (fun p q => p.1 ≠ q.1) := by
  induction l with
  | nil => intro acc h1 h2; exact ⟨h1, h2⟩
  | cons t rest ih =>
    intro acc h1 h2
    rw [List.foldl_cons]
    have h := keyInv_dictInsert acc t h1 h2
    exact ih _ h.1 h.2

theorem snd_mem_foldl (l : List BankTransaction) :
    ∀ acc p, p ∈ l.foldl dictInsert acc → (∃ q ∈ acc, p.2 = q.2) ∨ p.2 ∈ l := by
  induction l with
  | nil => intro acc p hp; left; exact ⟨p, hp, rfl⟩
  | cons t rest ih =>
    intro acc p hp
    rw [List.foldl_cons] at hp
    rcases ih (dictInsert acc t) p hp with ⟨q, hq, hpq⟩ | h
    · rcases snd_mem_dictInsert acc t q hq with h' | ⟨r, hr, hqr⟩
      · right; rw [hpq, h']; exact List.mem_cons_self _ _
      · left; exact ⟨r, hr, hpq.trans hqr⟩
    · right; exact List.mem_cons_of_mem _ h

theorem length_foldl_dictInsert (l : List BankTransaction) :
    ∀ acc, (l.foldl dictInsert acc).length ≤ acc.length + l.length := by
  induction l with
  | nil => intro acc; simp
  | cons t rest ih =>
    intro acc
    rw [List.foldl_cons]
    calc (rest.foldl dictInsert (dictInsert acc t)).length
        ≤ (dictInsert acc t).length + rest.length := ih _
      _ ≤ acc.length + 1 + rest.length := by
          have := length_dictInsert acc t; omega
      _ = acc.length + (t :: rest).length := by simp; omega

theorem foldl_dictInsert_ne_nil (l : List BankTransaction) :
    ∀ acc, acc ≠ [] → l.foldl dictInsert acc ≠ [] := by
  induction l with
  | nil => intro acc h; exact h
  | cons t rest ih =>
    intro acc _
    rw [List.foldl_cons]
    exact ih _ (dictInsert_ne_nil acc t)

/- ### Lemmas about _remove_duplicate_transactions -/

theorem mem_removeDuplicateTransactions (l : List BankTransaction)
    (t : BankTransaction) (ht : t ∈ removeDuplicateTransactions l) : t ∈ l := by
  unfold removeDuplicateTransactions at ht
  rcases List.mem_map.1 ht with ⟨p, hp, hpt⟩
  rcases snd_mem_foldl l [] p hp with ⟨q, hq, _⟩ | h
  · exact absurd hq (List.not_mem_nil q)
  · rw [← hpt]; exact h

theorem length_removeDuplicateTransactions (l : List BankTransaction) :
    (removeDuplicateTransactions l).length ≤ l.length := by
  unfold removeDuplicateTransactions
  rw [List.length_map]
  have := length_foldl_dictInsert l []
  simpa using this

theorem pairwise_key_removeDuplicateTransactions (l : List BankTransaction) :
    (removeDuplicateTransactions l).Pairwise (fun a b => dedupKey a ≠ dedupKey b) := by
  unfold removeDuplicateTransactions
  have h := keyInv_foldl l [] (by simp) (by simp)
  rw [List.pairwise_map]
  refine List.Pairwise.imp_of_mem ?_ h.2
  intro p q hp hq hne
  rw [← h.1 p hp, ← h.1 q hq]
  exact hne

theorem removeDuplicateTransactions_ne_nil (l : List BankTransaction)
    (h : l ≠ []) : removeDuplicateTransactions l ≠ [] := by
  unfold removeDuplicateTransactions
  rw [Ne, List.map_eq_nil_iff]
  cases l with
  | nil => exact absurd rfl h
  | cons t rest =>
    rw [List.foldl_cons]
    exact foldl_dictInsert_ne_nil rest _ (dictInsert_ne_nil [] t)

/- ### Lemmas about the stable sort -/

theorem sortTransactions_perm (l : List BankTransaction) :
    (sortTransactions l).Perm l :=
  List.perm_insertionSort txDateLe l

theorem sortTransactions_sorted (l : List BankTransaction) :
    List.Sorted txDateLe (sortTransactions l) :=
  List.sorted_insertionSort txDateLe l

theorem filter_orderedInsert_of_neg (p : BankTransaction → Bool)
    (a : BankTransaction) (hpa : p a = false) :
    ∀ m, (List.orderedInsert txDateLe a m).filter p = m.filter p := by
  intro m
  induction m with
  | nil => simp [List.orderedInsert, List.filter_cons, hpa]
  | cons b m ih =>
    rw [List.orderedInsert]
    split
    · simp [List.filter_cons, hpa]
    · by_cases hb : p b = true <;> simp [List.filter_cons, hb, ih]

theorem filter_orderedInsert_of_pos (p : BankTransaction → Bool)
    (a : BankTransaction) (hpa : p a = true) :
    ∀ m, (∀ b ∈ m, ¬ txDateLe a b → p b = false) →
      (List.orderedInsert txDateLe a m).filter p = a :: m.filter p := by
  intro m
  induction m with
  | nil => intro _; simp [List.orderedInsert, List.filter_cons, hpa]
  | cons b m ih =>
    intro hm
    rw [List.orderedInsert]
    split
    · simp [List.filter_cons, hpa]
    · rename_i hab
      have hpb : p b = false := hm b (List.mem_cons_self _ _) hab
      rw [List.filter_cons, List.filter_cons, hpb]
      simp only [Bool.false_eq_true, if_false]
      exact ih fun c hc h => hm c (List.mem_cons_of_mem _ hc) h

theorem sortTransactions_stable_filter (d : PyDateTime) :
    ∀ l : List BankTransaction,
      (sortTransactions l).filter (fun t => decide (t.date = d)) =
        l.filter (fun t => decide (t.date = d)) := by
  intro l
  induction l with
  | nil => rfl
  | cons t l ih =>
    have hsort : sortTransactions (t :: l)
        = List.orderedInsert txDateLe t (sortTransactions l) := rfl
    rw [hsort]
    by_cases hd : t.date = d
    · rw [filter_orderedInsert_of_pos _ t (by simp [hd]) _ ?side]
      · rw [ih, List.filter_cons]
        simp [hd]
      case side =>
        intro b _ hnle
        by_contra hb
        have hbd : b.date = d := by simpa using hb
        exact hnle (by unfold txDateLe dateLe; rw [hd, hbd]; omega)
    · rw [filter_orderedInsert_of_neg _ t (by simp [hd]), ih, List.filter_cons]
      simp [hd]

/- ### Lemmas about the chunk fan-in -/

theorem foldl_combine_eq (rs : List (Option (List BankTransaction))) :
    ∀ acc, rs.foldl (fun acc r => match r with | some ts => acc ++ ts | none => acc) acc
      = acc ++ (rs.map (fun r => r.getD [])).flatten := by
  induction rs with
  | nil => intro acc; simp
  | cons r rs ih =>
    intro acc
    cases r <;> simp [List.foldl_cons, ih, List.append_assoc]

theorem combineChunkResults_eq_flatten (rs : List (Option (List BankTransaction))) :
    combineChunkResults rs = (rs.map (fun r => r.getD [])).flatten := by
  unfold combineChunkResults
  simpa using foldl_combine_eq rs []

theorem combineChunkResults_skip_none (pre post : List (Option (List BankTransaction))) :
    combineChunkResults (pre ++ none :: post) = combineChunkResults (pre ++ post) := by
  rw [combineChunkResults_eq_flatten, combineChunkResults_eq_flatten]
  simp

theorem mem_combineChunkResults (rs : List (Option (List BankTransaction)))
    (ts : List BankTransaction) (t : BankTransaction)
    (hrs : some ts ∈ rs) (ht : t ∈ ts) : t ∈ combineChunkResults rs := by
  rw [combineChunkResults_eq_flatten]
  exact List.mem_flatten.2 ⟨ts, List.mem_map.2 ⟨some ts, hrs, rfl⟩, ht⟩

theorem batchResults_map_ok (results : List (Option (List BankTransaction))) :
    batchResults (results.map Except.ok) = .ok results := by
  induction results with
  | nil => rfl
  | cons r rest ih => simp [batchResults, ih]

theorem batchResults_error (outPre outPost : List (Except Unit (Option (List BankTransaction)))) :
    batchResults (outPre ++ .error () :: outPost) = .error () := by
  induction outPre with
  | nil => rfl
  | cons o rest ih =>
    cases o with
    | error e => cases e; rfl
    | ok r => simp [List.cons_append, batchResults, ih]

/- ### Lemmas about category get-or-create and the save loop -/

theorem getOrCreateCategory_spec (s : DBState) (label : Option String) :
    (getOrCreateCategory s label).1.statements = s.statements ∧
    (getOrCreateCategory s label).1.metas = s.metas ∧
    (getOrCreateCategory s label).1.txRows = s.txRows ∧
    (∃ suff, (getOrCreateCategory s label).1.cats = s.cats ++ suff) ∧
    (getOrCreateCategory s label).2 ∈ (getOrCreateCategory s label).1.cats := by
  cases hf : s.cats.find? (fun c => decide (c.name = resolveCategoryEnum label)) with
  | some c =>
    have heq : getOrCreateCategory s label = (s, c) := by
      simp only [getOrCreateCategory, hf]
    rw [heq]
    exact ⟨rfl, rfl, rfl, ⟨[], by simp⟩, List.mem_of_find?_eq_some hf⟩
  | none =>
    have heq : getOrCreateCategory s label =
        ({ s with
            cats := s.cats ++ [⟨s.nextId, resolveCategoryEnum label⟩],
            nextId := s.nextId + 1 }, ⟨s.nextId, resolveCategoryEnum label⟩) := by
      simp only [getOrCreateCategory, hf]
    rw [heq]
    exact ⟨rfl, rfl, rfl, ⟨[⟨s.nextId, resolveCategoryEnum label⟩], rfl⟩, by simp⟩

theorem saveTxStep_spec (stmtId : Nat) (accountId : Option Nat) (view : DBState)
    (t : BankTransaction) :
    (saveTxStep stmtId accountId view t).statements = view.statements ∧
    (saveTxStep stmtId accountId view t).metas = view.metas ∧
    (∃ csuff, (saveTxStep stmtId accountId view t).cats = view.cats ++ csuff) ∧
    ∃ r, (saveTxStep stmtId accountId view t).txRows = view.txRows ++ [r] ∧
      r.statement_id = stmtId ∧ r.account_id = accountId ∧ r.date = t.date ∧
      r.description = t.description ∧ r.amount = t.amount ∧
      r.balance = t.balance ∧ r.transaction_type = t.transaction_type ∧
      r.reference_number = t.reference_number ∧
      r.is_recurring = t.is_recurring ∧ r.evidence = t.evidence ∧
      (t.category = none → r.category_id = none) ∧
      (∀ c, t.category = some c →
        ∃ cat ∈ (saveTxStep stmtId accountId view t).cats, r.category_id = some cat.id) := by
  cases hc : t.category with
  | none =>
    have hstep : saveTxStep stmtId accountId view t =
        { view with
          txRows := view.txRows ++ [mkTxRow stmtId accountId view.nextId none t],
          nextId := view.nextId + 1 } := by
      unfold saveTxStep; rw [hc]
    rw [hstep]
    refine ⟨rfl, rfl, ⟨[], by simp⟩, ?_⟩
    refine ⟨mkTxRow stmtId accountId view.nextId none t, rfl, rfl, rfl, rfl, rfl, rfl,
      rfl, rfl, rfl, rfl, rfl, fun _ => rfl, ?_⟩
    intro c' hc'
    cases hc'
  | some c =>
    have hstep : saveTxStep stmtId accountId view t =
        { (getOrCreateCategory view (some (memberValue c))).1 with
          txRows := (getOrCreateCategory view (some (memberValue c))).1.txRows ++
            [mkTxRow stmtId accountId
              (getOrCreateCategory view (some (memberValue c))).1.nextId
              (some (getOrCreateCategory view (some (memberValue c))).2.id) t],
          nextId := (getOrCreateCategory view (some (memberValue c))).1.nextId + 1 } := by
      unfold saveTxStep; rw [hc]
    rcases getOrCreateCategory_spec view (some (memberValue c)) with
      ⟨hgs, hgm, hgt, ⟨suff, hgc⟩, hmem⟩
    rw [hstep]
    refine ⟨hgs, hgm, ⟨suff, hgc⟩, ?_⟩
    refine ⟨mkTxRow stmtId accountId
        (getOrCreateCategory view (some (memberValue c))).1.nextId
        (some (getOrCreateCategory view (some (memberValue c))).2.id) t,
      by rw [hgt], rfl, rfl, rfl, rfl, rfl, rfl, rfl, rfl, rfl, rfl, ?_, ?_⟩
    · intro hcon; cases hcon
    · intro c' _
      exact ⟨(getOrCreateCategory view (some (memberValue c))).2, hmem, rfl⟩

theorem forall₂_mem_right {α β : Type} {R : α → β → Prop} :
    ∀ {l₁ : List α} {l₂ : List β}, List.Forall₂ R l₁ l₂ →
      ∀ b ∈ l₂, ∃ a ∈ l₁, R a b := by
  intro l₁ l₂ h
  induction h with
  | nil => intro b hb; exact absurd hb (List.not_mem_nil b)
  | cons hr _ ih =>
    intro b hb
    rcases List.mem_cons.1 hb with rfl | hb'
    · exact ⟨_, List.mem_cons_self _ _, hr⟩
    · rcases ih b hb' with ⟨a, ha, har⟩
      exact ⟨a, List.mem_cons_of_mem _ ha, har⟩

theorem saveTxLoop_spec (fail : Nat → Bool) (stmtId : Nat) (accountId : Option Nat) :
    ∀ (txs : List BankTransaction) (i : Nat) (view v2 : DBState) (j : Nat),
      saveTxLoop fail stmtId accountId i view txs = .ok (v2, j) →
      v2.statements = view.statements ∧
      v2.metas = view.metas ∧
      (∃ csuff, v2.cats = view.cats ++ csuff) ∧
      ∃ rows, v2.txRows = view.txRows ++ rows ∧
        List.Forall₂ (fun (t : BankTransaction) (r : TransactionRow) =>
          r.statement_id = stmtId ∧ r.account_id = accountId ∧ r.date = t.date ∧
          r.description = t.description ∧ r.amount = t.amount ∧
          r.balance = t.balance ∧ r.transaction_type = t.transaction_type ∧
          r.reference_number = t.reference_number ∧
          r.is_recurring = t.is_recurring ∧ r.evidence = t.evidence ∧
          (t.category = none → r.category_id = none) ∧
          (∀ c, t.category = some c → ∃ cat ∈ v2.cats, r.category_id = some cat.id))
          txs rows := by
  intro txs
  induction txs with
  | nil =>
    intro i view v2 j h
    unfold saveTxLoop at h
    cases h
    exact ⟨rfl, rfl, ⟨[], by simp⟩, [], by simp, List.Forall₂.nil⟩
  | cons t rest ih =>
    intro i view v2 j h
    unfold saveTxLoop at h
    split at h
    · exact absurd h (by simp)
    · rcases ih (i + 1) (saveTxStep stmtId accountId view t) v2 j h with
        ⟨hst, hmetas, ⟨csuff2, hcats2⟩, rows, hrows, hfa⟩
      rcases saveTxStep_spec stmtId accountId view t with
        ⟨hsst, hsmetas, ⟨csuff1, hcats1⟩, r, hrtx, hrprops⟩
      refine ⟨hst.trans hsst, hmetas.trans hsmetas,
        ⟨csuff1 ++ csuff2, by rw [hcats2, hcats1, List.append_assoc]⟩,
        r :: rows, ?_, ?_⟩
      · rw [hrows, hrtx, List.append_assoc]; rfl
      · refine List.forall₂_cons.2 ⟨?_, hfa⟩
        obtain ⟨h1, h2, h3, h4, h5, h6, h7, h8, h9, h10, h11, h12⟩ := hrprops
        refine ⟨h1, h2, h3, h4, h5, h6, h7, h8, h9, h10, h11, ?_⟩
        intro c hc
        rcases h12 c hc with ⟨cat, hcat, hcatid⟩
        refine ⟨cat, ?_, hcatid⟩
        rw [hcats2]
        exact List.mem_append_left _ hcat

theorem saveToDatabase_err_spec (fail : Nat → Bool) (db : DBState) (userId : String)
    (md : StatementMetadata) (txs : List BankTransaction) (title : String)
    (descr : Option String) (accId : Option Nat) (db' : DBState)
    (h : saveToDatabase fail db userId md txs title descr accId = .err db') :
    db' = db := by
  simp only [saveToDatabase] at h
  split at h
  · cases h; rfl
  · split at h
    · cases h; rfl
    · split at h
      · cases h; rfl
      · split at h
        · cases h; rfl
        · cases h

theorem saveToDatabase_ok_spec (fail : Nat → Bool) (db : DBState) (userId : String)
    (md : StatementMetadata) (txs : List BankTransaction) (title : String)
    (descr : Option String) (accId : Option Nat) (db' : DBState) (stmt : StatementRow)
    (h : saveToDatabase fail db userId md txs title descr accId = .ok db' stmt) :
    db'.statements = db.statements ++ [stmt] ∧
    (∃ mdRow : MetadataRow, db'.metas = db.metas ++ [mdRow] ∧
      mdRow.statement_id = stmt.id) ∧
    ∃ rows, db'.txRows = db.txRows ++ rows ∧
      List.Forall₂ (fun (t : BankTransaction) (r : TransactionRow) =>
        r.statement_id = stmt.id ∧ r.account_id = accId ∧ r.evidence = t.evidence ∧
        r.date = t.date ∧ r.amount = t.amount ∧
        (t.category = none → r.category_id = none) ∧
        (∀ c, t.category = some c → ∃ cat ∈ db'.cats, r.category_id = some cat.id))
        txs rows := by
  simp only [saveToDatabase] at h
  split at h
  · cases h
  · split at h
    · cases h
    · split at h
      · cases h
      · rename_i v2j hloop
        split at h
        · cases h
        · cases h
          rcases saveTxLoop_spec fail db.nextId accId txs 2 _ db' v2j hloop with
            ⟨hst, hmetas, _, rows, hrows, hfa⟩
          refine ⟨by simpa using hst, ⟨_, by simpa using hmetas, rfl⟩,
            rows, by simpa using hrows, ?_⟩
          refine hfa.imp ?_
          intro t r hr
          obtain ⟨h1, h2, h3, _, h5, _, _, _, _, h10, h11, h12⟩ := hr
          exact ⟨h1, h2, h10, h3, h5, h11, h12⟩

/- ### Claim theorems -/

/-- C1: save_to_database is all-or-nothing.  For every failure-injection
oracle and input, either the run rolls back and the published state is the
base state unchanged, or it commits and the published state carries the
statement row, its metadata row, and one transaction row per candidate, all
appended in the same unit of work. -/
theorem save_to_database_atomic (fail : Nat → Bool) (db : DBState) (userId : String)
    (md : StatementMetadata) (txs : List BankTransaction) (title : String)
    (descr : Option String) (accId : Option Nat) :
    (∀ db', saveToDatabase fail db userId md txs title descr accId = .err db' →
      db' = db) ∧
    (∀ db' stmt, saveToDatabase fail db userId md txs title descr accId = .ok db' stmt →
      db'.statements = db.statements ++ [stmt] ∧
      (∃ mdRow : MetadataRow, db'.metas = db.metas ++ [mdRow] ∧
        mdRow.statement_id = stmt.id) ∧
      (∃ rows, db'.txRows = db.txRows ++ rows ∧ rows.length = txs.length ∧
        ∀ r ∈ rows, r.statement_id = stmt.id)) := by
  constructor
  · intro db' h
    exact saveToDatabase_err_spec fail db userId md txs title descr accId db' h
  · intro db' stmt h
    rcases saveToDatabase_ok_spec fail db userId md txs title descr accId db' stmt h with
      ⟨hst, hmd, rows, hrows, hfa⟩
    refine ⟨hst, hmd, rows, hrows, (hfa.length_eq).symm, ?_⟩
    intro r hr
    rcases forall₂_mem_right hfa r hr with ⟨t, _, hsid, _⟩
    exact hsid

/-- C1 witness: the concrete no-failure run over one candidate commits the
statement row, the metadata row and the transaction row together. -/
theorem save_to_database_atomic_witness :
    c1finalDB.statements = emptyDB.statements ++ [sampleStmtRow] ∧
    (∃ mdRow : MetadataRow, c1finalDB.metas = emptyDB.metas ++ [mdRow] ∧
      mdRow.statement_id = sampleStmtRow.id) ∧
    (∃ rows, c1finalDB.txRows = emptyDB.txRows ++ rows ∧
      rows.length = [starbucksWithBalance].length ∧
      ∀ r ∈ rows, r.statement_id = sampleStmtRow.id) :=
  (save_to_database_atomic noFailure emptyDB "user-1" allNullMetadata
    [starbucksWithBalance] "March" none none).2 c1finalDB sampleStmtRow (by decide)

/-- C2: dedup-then-sort is a pure function of its input (equal inputs give
equal outputs), its output carries pairwise distinct dedup keys, is sorted
ascending by date, and ties keep the pre-sort (key-insertion) order: the
sort is stable. -/
theorem dedup_then_sort_deterministic_unique_sorted (l l' : List BankTransaction)
    (h : l = l') :
    dedupAndSort l = dedupAndSort l' ∧
    (dedupAndSort l).Pairwise (fun a b => dedupKey a ≠ dedupKey b) ∧
    List.Sorted txDateLe (dedupAndSort l) ∧
    ∀ d : PyDateTime,
      (dedupAndSort l).filter (fun t => decide (t.date = d)) =
        (removeDuplicateTransactions l).filter (fun t => decide (t.date = d)) := by
  subst h
  refine ⟨rfl, ?_, sortTransactions_sorted _, fun d => sortTransactions_stable_filter d _⟩
  have hp := pairwise_key_removeDuplicateTransactions l
  have hperm := sortTransactions_perm (removeDuplicateTransactions l)
  exact (hperm.pairwise_iff (fun hxy h' => hxy h'.symm)).2 hp

/-- C2 witness: the guarantees instantiated on a concrete one-element run. -/
theorem dedup_then_sort_deterministic_unique_sorted_witness :
    dedupAndSort [starbucksWithBalance] = dedupAndSort [starbucksWithBalance] ∧
    (dedupAndSort [starbucksWithBalance]).Pairwise (fun a b => dedupKey a ≠ dedupKey b) ∧
    List.Sorted txDateLe (dedupAndSort [starbucksWithBalance]) ∧
    (dedupAndSort [starbucksWithBalance]).filter (fun t => decide (t.date = d20240301)) =
      (removeDuplicateTransactions [starbucksWithBalance]).filter
        (fun t => decide (t.date = d20240301)) := by
  have h := dedup_then_sort_deterministic_unique_sorted
    [starbucksWithBalance] [starbucksWithBalance] rfl
  exact ⟨h.1, h.2.1, h.2.2.1, h.2.2.2 d20240301⟩

/-- C3 counterexample: the merge is not balance-first regardless of order.
With the balance-bearing candidate first and a reference-bearing,
balance-less candidate second, the reference-bearing record replaces the
balance-bearing one, so the surviving record has a null balance. -/
theorem dedup_reference_beats_balance :
    removeDuplicateTransactions [starbucksWithBalance, starbucksWithRef]
      = [starbucksWithRef] ∧
    starbucksWithBalance.balance = some 100000 ∧
    starbucksWithRef.balance = none := by
  exact ⟨by decide, by decide, by decide⟩

/-- C3 as amended: for colliding candidates that agree on reference-number
presence (in particular when neither carries one), the balance-bearing
candidate survives regardless of input order. -/
theorem dedup_most_complete_when_ref_agrees (x y : BankTransaction)
    (hkey : dedupKey x = dedupKey y)
    (href : refTruthy x.reference_number = refTruthy y.reference_number)
    (hx : x.balance.isSome = true) (hy : y.balance = none) :
    removeDuplicateTransactions [x, y] = [x] ∧
    removeDuplicateTransactions [y, x] = [x] := by
  have h1 : dictInsert [] x = [(dedupKey x, x)] := by unfold dictInsert; simp
  have h1' : dictInsert [] y = [(dedupKey y, y)] := by unfold dictInsert; simp
  have hmcyx : moreComplete y x = false := by
    unfold moreComplete
    rw [hy, ← href]
    simp
  have hmcxy : moreComplete x y = true := by
    unfold moreComplete
    rw [hy, hx]
    simp
  constructor
  · have h2 : dictInsert [(dedupKey x, x)] y = [(dedupKey x, x)] := by
      unfold dictInsert
      rw [hkey]
      simp [hmcyx]
    simp only [removeDuplicateTransactions, List.foldl_cons, List.foldl_nil, h1, h2]
    rfl
  · have h2 : dictInsert [(dedupKey y, y)] x = [(dedupKey y, x)] := by
      unfold dictInsert
      rw [← hkey]
      simp [hmcxy]
    simp only [removeDuplicateTransactions, List.foldl_cons, List.foldl_nil, h1', h2]
    rfl

/-- C3 witness: Scenario A.  Two colliding Starbucks candidates, one with a
balance and one without, neither with a reference number: the
balance-bearing copy survives in both input orders. -/
theorem dedup_most_complete_when_ref_agrees_witness :
    removeDuplicateTransactions [starbucksWithBalance, starbucksNoBalance]
      = [starbucksWithBalance] ∧
    removeDuplicateTransactions [starbucksNoBalance, starbucksWithBalance]
      = [starbucksWithBalance] :=
  dedup_most_complete_when_ref_agrees starbucksWithBalance starbucksNoBalance
    (by decide) (by decide) (by decide) (by decide)

/-- C4 counterexample: a chunk call that raises is not absorbed.  In a
five-chunk run where chunk 3's call fails or times out, batch (called with
its default return_exceptions=False) re-raises and extract_data aborts,
instead of returning the other chunks' transactions. -/
theorem timed_out_chunk_aborts_run :
    extractData (.ok allNullMetadata)
      [.ok (some [starbucksWithBalance]), .ok none, .error (),
       .ok none, .ok (some [starbucksNoBalance])] = .error () ∧
    (Except.error () : Except Unit (StatementMetadata × List BankTransaction)) ≠
      .ok (allNullMetadata, dedupAndSort
        (combineChunkResults [some [starbucksWithBalance], none, none,
          some [starbucksNoBalance]])) := by
  exact ⟨rfl, by simp⟩

/-- C4 as amended: a chunk extraction call that raises (API failure or
timeout) aborts the whole run — batch re-raises it, regardless of the other
chunks.  Only a chunk whose call returns a result without a transactions
list is absorbed: when no chunk raises, dropping such a result leaves the
output unchanged, the run completes, and if at least one chunk returned
transactions the output is nonempty. -/
theorem raising_chunk_aborts_malformed_chunk_absorbed (md : StatementMetadata)
    (outPre outPost : List (Except Unit (Option (List BankTransaction))))
    (pre post : List (Option (List BankTransaction))) (ts : List BankTransaction) :
    extractData (.ok md) (outPre ++ .error () :: outPost) = .error () ∧
    extractData (.ok md) ((pre ++ none :: post).map .ok)
      = extractData (.ok md) ((pre ++ post).map .ok) ∧
    (∃ out, extractData (.ok md) ((pre ++ none :: post).map .ok) = .ok (md, out)) ∧
    (some ts ∈ pre ++ post → ts ≠ [] →
      ∃ out, extractData (.ok md) ((pre ++ none :: post).map .ok) = .ok (md, out) ∧
        out ≠ []) := by
  have habort : extractData (.ok md) (outPre ++ .error () :: outPost) = .error () := by
    simp only [extractData, batchResults_error outPre outPost]
  have hok : ∀ results : List (Option (List BankTransaction)),
      extractData (.ok md) (results.map .ok)
        = .ok (md, dedupAndSort (combineChunkResults results)) := by
    intro results
    simp only [extractData, batchResults_map_ok]
  have hskip := combineChunkResults_skip_none pre post
  refine ⟨habort, by rw [hok, hok, hskip], ⟨_, hok _⟩, ?_⟩
  intro hmem hne
  refine ⟨dedupAndSort (combineChunkResults (pre ++ none :: post)), hok _, ?_⟩
  rw [hskip]
  have hc : combineChunkResults (pre ++ post) ≠ [] := by
    cases hts : ts with
    | nil => exact absurd hts hne
    | cons t rest =>
      intro hcontra
      have hmem' : t ∈ combineChunkResults (pre ++ post) :=
        mem_combineChunkResults _ ts t hmem (by rw [hts]; exact List.mem_cons_self _ _)
      rw [hcontra] at hmem'
      exact List.not_mem_nil t hmem'
  have hd := removeDuplicateTransactions_ne_nil _ hc
  intro hcontra
  have hperm := sortTransactions_perm
    (removeDuplicateTransactions (combineChunkResults (pre ++ post)))
  unfold dedupAndSort at hcontra
  rw [hcontra] at hperm
  exact hd hperm.symm.eq_nil

/-- C4 witness: the concrete abort — one successful chunk next to one
raising chunk still errors — and the concrete absorption: a returned
result without transactions next to a successful chunk leaves a nonempty
completed run. -/
theorem raising_chunk_aborts_malformed_chunk_absorbed_witness :
    extractData (.ok allNullMetadata)
      [.ok (some [starbucksWithBalance]), .error ()] = .error () ∧
    (∃ out, extractData (.ok allNullMetadata)
      ([some [starbucksWithBalance], none].map .ok)
        = .ok (allNullMetadata, out) ∧ out ≠ []) := by
  have h := raising_chunk_aborts_malformed_chunk_absorbed allNullMetadata
    [.ok (some [starbucksWithBalance])] [] [some [starbucksWithBalance]] []
    [starbucksWithBalance]
  exact ⟨h.1, h.2.2.2 (by decide) (by decide)⟩

/-- C5 counterexample: a failed metadata call aborts extract_data (nothing
catches it), rather than proceeding with an all-null metadata record. -/
theorem metadata_failure_aborts :
    extractData (.error ()) [.ok (some [starbucksWithBalance])] = .error () ∧
    (Except.error () : Except Unit (StatementMetadata × List BankTransaction)) ≠
      .ok (allNullMetadata,
        dedupAndSort (combineChunkResults [some [starbucksWithBalance]])) := by
  exact ⟨rfl, by simp⟩

/-- C5 as amended: metadata extraction failure is fatal — the error
propagates out of extract_data untouched; only a successful call (including
one returning an all-null record) lets the pipeline proceed to the
transaction stage. -/
theorem metadata_error_propagates (e : Unit)
    (outcomes : List (Except Unit (Option (List BankTransaction))))
    (results : List (Option (List BankTransaction))) :
    extractData (.error e) outcomes = .error e ∧
    extractData (.ok allNullMetadata) (results.map .ok)
      = .ok (allNullMetadata, dedupAndSort (combineChunkResults results)) :=
  ⟨rfl, by simp only [extractData, batchResults_map_ok]⟩

/-- C6: the normalization also rewrites ampersands to underscores, so the
label "Food & Dining" becomes "FOOD___DINING", matches neither an enum
member name nor a value, and resolves to OTHER — not FOOD_DINING as the
taxonomy intends; unmatched and missing labels also resolve to OTHER, and a
label spelled like the member name does resolve. -/
theorem food_dining_resolves_to_other :
    normalizeCategoryName "Food & Dining" = "FOOD___DINING" ∧
    resolveCategoryEnum (some "Food & Dining") = .OTHER ∧
    TransactionCategoryEnum.OTHER ≠ TransactionCategoryEnum.FOOD_DINING ∧
    resolveCategoryEnum (some "Unknown Vendor Type") = .OTHER ∧
    resolveCategoryEnum none = .OTHER ∧
    resolveCategoryEnum (some "FOOD_DINING") = .FOOD_DINING := by
  exact ⟨by decide, by decide, by decide, by decide, by decide, by decide⟩

/-- C7 counterexample: two concurrent get-or-create calls that both miss the
lookup race their inserts; the second insert violates the unique constraint
and the code has no conflict handler, so the race surfaces an error instead
of re-reading the winner's row. -/
theorem concurrent_category_create_errors :
    concurrentGetOrCreate [] 0 (some "Income") = .error () := rfl

/-- C7 as amended: sequential resolution of the same label is idempotent
(the second call returns the same row and leaves the state unchanged), the
unique constraint keeps category names duplicate-free, but resolution is
check-then-insert without conflict-retry: a concurrent race either finds
the same pre-existing row for both callers or errors. -/
theorem category_get_or_create_idempotent (s : DBState) (label : Option String)
    (hnodup : s.cats.Pairwise (fun a b => a.name ≠ b.name)) :
    getOrCreateCategory (getOrCreateCategory s label).1 label
      = getOrCreateCategory s label ∧
    (getOrCreateCategory s label).1.cats.Pairwise (fun a b => a.name ≠ b.name) ∧
    (∀ cats0 n0,
      (∃ c, cats0.find? (fun c' => decide (c'.name = resolveCategoryEnum label)) = some c ∧
        concurrentGetOrCreate cats0 n0 label = .ok (cats0, c, c)) ∨
      concurrentGetOrCreate cats0 n0 label = .error ()) := by
  refine ⟨?_, ?_, ?_⟩
  · cases hf : s.cats.find? (fun c => decide (c.name = resolveCategoryEnum label)) with
    | some c =>
      have heq : getOrCreateCategory s label = (s, c) := by
        simp only [getOrCreateCategory, hf]
      rw [heq, heq]
    | none =>
      have heq : getOrCreateCategory s label =
          ({ s with
              cats := s.cats ++ [⟨s.nextId, resolveCategoryEnum label⟩],
              nextId := s.nextId + 1 }, ⟨s.nextId, resolveCategoryEnum label⟩) := by
        simp only [getOrCreateCategory, hf]
      rw [heq]
      simp only [getOrCreateCategory, List.find?_append, hf, Option.none_or]
      simp [List.find?]
  · cases hf : s.cats.find? (fun c => decide (c.name = resolveCategoryEnum label)) with
    | some c =>
      have heq : getOrCreateCategory s label = (s, c) := by
        simp only [getOrCreateCategory, hf]
      rw [heq]
      exact hnodup
    | none =>
      have heq : getOrCreateCategory s label =
          ({ s with
              cats := s.cats ++ [⟨s.nextId, resolveCategoryEnum label⟩],
              nextId := s.nextId + 1 }, ⟨s.nextId, resolveCategoryEnum label⟩) := by
        simp only [getOrCreateCategory, hf]
      rw [heq]
      rw [List.pairwise_append]
      refine ⟨hnodup, List.pairwise_singleton _ _, ?_⟩
      intro a ha b hb
      rw [List.mem_singleton.1 hb]
      have := List.find?_eq_none.1 hf a ha
      simpa using this
  · intro cats0 n0
    cases hf0 : cats0.find? (fun c => decide (c.name = resolveCategoryEnum label)) with
    | some c =>
      left
      refine ⟨c, rfl, ?_⟩
      simp only [concurrentGetOrCreate, hf0]
    | none =>
      right
      have hany : cats0.any (fun c => decide (c.name = resolveCategoryEnum label)) = false := by
        rw [← Bool.not_eq_true, List.any_eq_true]
        rintro ⟨c, hc, hdec⟩
        exact absurd hdec (by simpa using List.find?_eq_none.1 hf0 c hc)
      simp only [concurrentGetOrCreate, hf0, dbInsertCategory, hany]
      simp [List.any_append]

/-- C7 witness: resolving "Income" on an empty category table is idempotent
across two sequential calls, and the modeled concurrent race on the same
empty table errors out. -/
theorem category_get_or_create_idempotent_witness :
    getOrCreateCategory (getOrCreateCategory emptyDB (some "Income")).1 (some "Income")
      = getOrCreateCategory emptyDB (some "Income") ∧
    ((∃ c, ([] : List CategoryRow).find?
        (fun c' => decide (c'.name = resolveCategoryEnum (some "Income"))) = some c ∧
      concurrentGetOrCreate [] 0 (some "Income") = .ok ([], c, c)) ∨
      concurrentGetOrCreate [] 0 (some "Income") = .error ()) := by
  have h := category_get_or_create_idempotent emptyDB (some "Income") (by decide)
  exact ⟨h.1, h.2.2 [] 0⟩

/-- C8 counterexample: a successful save can persist a transaction row with
an empty evidence string and a null categoryId (candidate with no label). -/
theorem persisted_row_empty_evidence_null_category :
    (saveToDatabase noFailure emptyDB "user-1" allNullMetadata
      [txNoCategoryEmptyEvidence] "March" none none).isOk = true ∧
    (saveToDatabase noFailure emptyDB "user-1" allNullMetadata
      [txNoCategoryEmptyEvidence] "March" none none).txRowsOf.map
        (fun r => (r.evidence, r.category_id)) = [("", none)] := by
  exact ⟨by decide, by decide⟩

/-- C8 as amended: every persisted transaction row carries the candidate's
evidence verbatim (the schema requires the field but not its
non-emptiness), and its categoryId is null exactly when the candidate has
no label, otherwise it references a Category row present in the committed
state. -/
theorem save_rows_evidence_and_category (fail : Nat → Bool) (db : DBState)
    (userId : String) (md : StatementMetadata) (txs : List BankTransaction)
    (title : String) (descr : Option String) (accId : Option Nat) :
    ∀ db' stmt, saveToDatabase fail db userId md txs title descr accId = .ok db' stmt →
      ∃ rows, db'.txRows = db.txRows ++ rows ∧
        List.Forall₂ (fun (t : BankTransaction) (r : TransactionRow) =>
          r.evidence = t.evidence ∧
          (t.category = none → r.category_id = none) ∧
          (∀ c, t.category = some c → ∃ cat ∈ db'.cats, r.category_id = some cat.id))
          txs rows := by
  intro db' stmt h
  rcases saveToDatabase_ok_spec fail db userId md txs title descr accId db' stmt h with
    ⟨_, _, rows, hrows, hfa⟩
  refine ⟨rows, hrows, hfa.imp ?_⟩
  intro t r hr
  obtain ⟨_, _, hev, _, _, h6, h7⟩ := hr
  exact ⟨hev, h6, h7⟩

/-- C8 witness: the concrete no-failure run over the label-less candidate
satisfies the amended row contract. -/
theorem save_rows_evidence_and_category_witness :
    ∃ rows, c8finalDB.txRows = emptyDB.txRows ++ rows ∧
      List.Forall₂ (fun (t : BankTransaction) (r : TransactionRow) =>
        r.evidence = t.evidence ∧
        (t.category = none → r.category_id = none) ∧
        (∀ c, t.category = some c → ∃ cat ∈ c8finalDB.cats, r.category_id = some cat.id))
        [txNoCategoryEmptyEvidence] rows :=
  save_rows_evidence_and_category noFailure emptyDB "user-1" allNullMetadata
    [txNoCategoryEmptyEvidence] "March" none none c8finalDB sampleStmtRow (by decide)

/-- C9: a run whose extraction yields zero transactions is a hard failure
raised before persistence: the endpoint errors and the database is
unchanged; the empty input (zero chunks) is such a run, and an extraction
error likewise persists nothing. -/
theorem no_transactions_extracted_hard_failure (fail : Nat → Bool) (db : DBState)
    (userId title : String) (descr : Option String) (accId : Option Nat)
    (md : StatementMetadata) :
    extractBankStatement fail db userId title descr accId (.ok (md, [])) = .err db ∧
    extractData (.ok md) [] = .ok (md, []) ∧
    (∀ e, extractBankStatement fail db userId title descr accId (.error e) = .err db) :=
  ⟨rfl, rfl, fun _ => rfl⟩

/-- C10: dedup selects whole records: every record of the dedup-then-sort
output is one of the input records, and the output is no longer than the
input. -/
theorem dedup_selects_from_input (l : List BankTransaction) :
    (∀ t ∈ dedupAndSort l, t ∈ l) ∧ (dedupAndSort l).length ≤ l.length := by
  constructor
  · intro t ht
    have hperm := sortTransactions_perm (removeDuplicateTransactions l)
    exact mem_removeDuplicateTransactions l t (hperm.mem_iff.1 ht)
  · have hperm := sortTransactions_perm (removeDuplicateTransactions l)
    unfold dedupAndSort
    rw [hperm.length_eq]
    exact length_removeDuplicateTransactions l

/-- C10 witness: on the concrete two-candidate input, the surviving record
is one of the inputs and the output is shorter. -/
theorem dedup_selects_from_input_witness :
    starbucksWithBalance ∈ [starbucksWithBalance, starbucksNoBalance] ∧
    (dedupAndSort [starbucksWithBalance, starbucksNoBalance]).length ≤
      ([starbucksWithBalance, starbucksNoBalance] : List BankTransaction).length := by
  have h := dedup_selects_from_input [starbucksWithBalance, starbucksNoBalance]
  exact ⟨h.1 starbucksWithBalance (by decide), h.2⟩

end BankPipeline
